import Mathlib

/-!
# SX9310 capacitive touch controller driver (`sx9310.c`)

A shallow embedding of the driver's register access, button state machine,
initialisation sequence and status dispatch, followed by theorems about them.

Conventions of the embedding:

* `this` is always a valid (non-NULL) `psx93XX_t`; the pointers the driver itself
  tests for NULL (`bus`, `pDevice`, `hw`, `buttons`, `input`, `get_nirq_low`) are
  `Option`s.
* A function returns `none` when the C code would dereference a NULL pointer or
  index past the end of an array; otherwise it returns `some` of its result and of
  the device after the call.
* Everything the driver does to the I2C bus is appended to `i2c_client.log`, and
  everything it reports to the input core is appended to `input_dev.events`.
-/

namespace Sx9310

/-! ## Kernel objects the driver talks to -/

/-- One transfer requested from the I2C core. -/
inductive i2c_msg where
  /-- The two-byte transfer `i2c_master_send(i2c, {address, value}, 2)`. -/
  | send (address value : Nat)
  /-- The transfer `i2c_smbus_read_byte_data(i2c, command)`. -/
  | read_byte_data (command : Nat)
  deriving DecidableEq, Repr

/-- An `struct i2c_client`: the transport behind it and the transfers made so far.
`adapter log msg` is the value the I2C core returns for `msg` after the transfers
in `log`: negative (an errno) when the transfer fails. -/
structure i2c_client where
  adapter : List i2c_msg → i2c_msg → Int
  log : List i2c_msg

/-- The call `i2c_master_send(client, buffer, 2)` with `buffer = {address, value}`. -/
def i2c_master_send (client : i2c_client) (address value : Nat) : Int × i2c_client :=
  (client.adapter client.log (.send address value),
   { client with log := client.log ++ [.send address value] })

/-- The call `i2c_smbus_read_byte_data(client, command)`. -/
def i2c_smbus_read_byte_data (client : i2c_client) (command : Nat) : Int × i2c_client :=
  (client.adapter client.log (.read_byte_data command),
   { client with log := client.log ++ [.read_byte_data command] })

/-- What the driver hands to the input core. -/
inductive input_event where
  /-- The call `input_report_key(input, code, value)`. -/
  | key (code value : Nat)
  /-- The call `input_sync(input)`. -/
  | sync
  deriving DecidableEq, Repr

/-- An `struct input_dev`: the calls received so far, oldest first. -/
structure input_dev where
  events : List input_event
  deriving DecidableEq, Repr

/-- The call `input_report_key(input, code, value)`. -/
def input_report_key (input : input_dev) (code value : Nat) : input_dev :=
  { input with events := input.events ++ [.key code value] }

/-- The call `input_sync(input)`. -/
def input_sync (input : input_dev) : input_dev :=
  { input with events := input.events ++ [.sync] }

/-- The errno `ENOMEM` of the kernel. -/
abbrev ENOMEM : Int := 12

/-! ## Declarations of `linux/input/sx9310.h` -/

/-- Modelled from the spec: the header `linux/input/sx9310.h` is not part of the
source tree, so the register addresses and the table size it defines are taken as
parameters: the status register read by `read_regStat` and written by the
calibration trigger, the touch status register read by `touchProcess`, the
soft-reset register and its command value, and the number of entries of the
per-bit handler table. -/
structure sx9310_h where
  SX9310_IRQSTAT_REG : Nat
  SX9310_STAT0_REG : Nat
  SX9310_SOFTRESET_REG : Nat
  SX9310_SOFTRESET : Nat
  MAX_NUM_STATUS_BITS : Nat

/-- Button state `IDLE` (`#define IDLE 0`). -/
abbrev IDLE : Nat := 0

/-- Button state `ACTIVE` (`#define ACTIVE 1`). -/
abbrev ACTIVE : Nat := 1

/-- Modelled from the spec: `struct _buttonInfo` of the missing header, the Button
Descriptor of the specification: the event code to emit, the bitmask of status bits
and the state (`IDLE`, `ACTIVE`, or any other integer). -/
structure buttonInfo where
  keycode : Nat
  mask : Nat
  state : Nat
  deriving DecidableEq, Repr

/-- Modelled from the spec: `struct _totalButtonInformation` of the missing header,
the Button Information Set: the button array (or NULL), the number of buttons
to process and the input device (or NULL). -/
structure totalButtonInformation where
  buttons : Option (List buttonInfo)
  buttonSize : Nat
  input : Option input_dev

/-- Modelled from the spec: `struct smtc_reg_data` of the missing header, one
(address, value) pair of the Platform/Register Program. -/
structure smtc_reg_data where
  reg : Nat
  val : Nat
  deriving DecidableEq, Repr

/-- Modelled from the spec: the fields of `struct sx9310_platform_data` that
`hw_init` reads: the Platform/Register Program and its length. -/
structure sx9310_platform_data where
  i2c_reg_num : Nat
  pi2c_reg : List smtc_reg_data

/-- The device specific `struct sx9310` (`sx9310_t`). `pbuttonInformation` is
dereferenced without a test everywhere, so it is not an `Option`. -/
structure sx9310 where
  pbuttonInformation : totalButtonInformation
  hw : Option sx9310_platform_data

/-- Modelled from the spec: the data fields of `struct sx93XX` (the Device Handle)
that the driver uses, together with the two pieces of kernel state its calls
change: `irq_depth`, the disable depth of `this->irq` (`disable_irq` raises it,
`enable_irq` lowers it), and `dworker`, the delay of the pending delayed work, if
one is pending. `get_nirq_low` is NULL or the value the callback returns. The
function-pointer fields are kept in `sx93XX_funcs`. -/
structure sx93XX where
  bus : Option i2c_client
  pDevice : Option sx9310
  irq_disabled : Nat
  useIrqTimer : Nat
  irqTimeout : Nat
  get_nirq_low : Option Int
  irq_depth : Nat
  dworker : Option Nat

/-- The function-pointer fields of `struct sx93XX`: `init`, `refreshStatus` and
the per-bit handler table `statusFunc` (`none` is a NULL entry). Only entries below
`MAX_NUM_STATUS_BITS` are ever read. -/
structure sx93XX_funcs where
  init : Option (sx93XX → Option (Int × sx93XX))
  refreshStatus : sx93XX → Option (Nat × sx93XX)
  statusFunc : Nat → Option (sx93XX → Option sx93XX)

/-! ## Register access and the forced touch -/

/-- `ForcetoTouched`: report a press of the first button, mark it `ACTIVE`, sync. -/
def ForcetoTouched (this : sx93XX) : Option sx93XX :=
  match this.pDevice with
  | none => some this
  | some pDevice =>
    match pDevice.pbuttonInformation.buttons, pDevice.pbuttonInformation.input with
    | some (pCurrentButton :: rest), some input =>
      let input := input_report_key input pCurrentButton.keycode 1
      let pCurrentButton := { pCurrentButton with state := ACTIVE }
      let input := input_sync input
      some { this with
        pDevice := some { pDevice with
          pbuttonInformation := { pDevice.pbuttonInformation with
            buttons := some (pCurrentButton :: rest)
            input := some input } } }
    | _, _ => none

/-- `write_register`: send `{address, value}`; on a negative result force the
touch. Returns the value of `i2c_master_send`, or `-ENOMEM` without a bus. -/
def write_register (this : sx93XX) (address value : Nat) : Option (Int × sx93XX) :=
  let address := address % 256
  let value := value % 256
  let (returnValue, this) :=
    match this.bus with
    | some i2c =>
      let (returnValue, i2c) := i2c_master_send i2c address value
      (returnValue, { this with bus := some i2c })
    | none => (-ENOMEM, this)
  if returnValue < 0 then
    (ForcetoTouched this).map fun this => (returnValue, this)
  else
    some (returnValue, this)

/-- `read_register`: read one byte; `value` is the content of `*value` before the
call and the second component of the result is its content after it. Returns 0 on
success and the negative value of `i2c_smbus_read_byte_data` on failure; without a
bus it forces the touch and returns `-ENOMEM`. -/
def read_register (this : sx93XX) (address : Nat) (value : Nat) :
    Option (Int × Nat × sx93XX) :=
  let address := address % 256
  match this.bus with
  | some i2c =>
    let (returnValue, i2c) := i2c_smbus_read_byte_data i2c address
    let this := { this with bus := some i2c }
    if returnValue ≥ 0 then
      some (0, returnValue.toNat % 256, this)
    else
      some (returnValue, value, this)
  | none =>
    (ForcetoTouched this).map fun this => (-ENOMEM, value, this)

/-- `manual_offset_calibration`: write `0xFF` to the IRQSTAT register. -/
def manual_offset_calibration (hdr : sx9310_h) (this : sx93XX) : Option (Int × sx93XX) :=
  write_register this hdr.SX9310_IRQSTAT_REG 0xFF

/-- `read_regStat`: the byte of the IRQSTAT register, or 0 when the read failed. -/
def read_regStat (hdr : sx9310_h) (this : sx93XX) : Option (Nat × sx93XX) :=
  match read_register this hdr.SX9310_IRQSTAT_REG 0 with
  | none => none
  | some (ret, data, this) =>
    if ret = 0 then some (data &&& 0x00FF, this) else some (0, this)

/-! ## Hardware initialisation -/

/-- The `while (i < pdata->i2c_reg_num)` loop of `hw_init`: the first argument is
the number of iterations left, the second the index `i`. The value returned by
`write_register` is not looked at. -/
def hw_init_while (pdata : sx9310_platform_data) : Nat → Nat → sx93XX → Option sx93XX
  | 0, _, this => some this
  | n + 1, i, this =>
    match pdata.pi2c_reg[i]? with
    | none => none
    | some entry =>
      match write_register this entry.reg entry.val with
      | none => none
      | some (_, this) => hw_init_while pdata n (i + 1) this

/-- `hw_init`: write every register of the platform data, or force the touch when
there is no platform data. `pDevice->hw` is read before `pDevice` is tested. -/
def hw_init (this : sx93XX) : Option sx93XX :=
  match this.pDevice with
  | none => none
  | some pDevice =>
    match pDevice.hw with
    | some pdata => hw_init_while pdata pdata.i2c_reg_num 0 this
    | none => ForcetoTouched this

/-- The kernel call `disable_irq(this->irq)`. -/
def disable_irq (this : sx93XX) : sx93XX :=
  { this with irq_depth := this.irq_depth + 1 }

/-- The kernel call `enable_irq(this->irq)`. -/
def enable_irq (this : sx93XX) : sx93XX :=
  { this with irq_depth := this.irq_depth - 1 }

/-- The function `initialize` of the driver. The two `msleep` calls change nothing in
the model. With `DEBUG` defined the two `dev_dbg` statements call
`this->get_nirq_low()`, which fails on a NULL callback. -/
def initialize_device (hdr : sx9310_h) (this : sx93XX) : Option (Int × sx93XX) :=
  let this := { this with irq_disabled := 1 }
  let this := disable_irq this
  match write_register this hdr.SX9310_SOFTRESET_REG hdr.SX9310_SOFTRESET with
  | none => none
  | some (_, this) =>
    match this.get_nirq_low with
    | none => none
    | some _ =>
      match hw_init this with
      | none => none
      | some this =>
        match manual_offset_calibration hdr this with
        | none => none
        | some (_, this) =>
          let this := enable_irq this
          let this := { this with irq_disabled := 0 }
          match read_regStat hdr this with
          | none => none
          | some (_, this) => some (0, this)

/-! ## Button state machine -/

/-- The `switch (pCurrentButton->state)` of `touchProcess` for one button and the
status byte `i`. -/
def touchProcess_switch (i : Nat) (pCurrentButton : buttonInfo) (input : input_dev) :
    buttonInfo × input_dev :=
  if pCurrentButton.state = IDLE then
    if i &&& pCurrentButton.mask = pCurrentButton.mask then
      ({ pCurrentButton with state := ACTIVE },
       input_report_key input pCurrentButton.keycode 1)
    else
      (pCurrentButton, input)
  else if pCurrentButton.state = ACTIVE then
    if i &&& pCurrentButton.mask ≠ pCurrentButton.mask then
      ({ pCurrentButton with state := IDLE },
       input_report_key input pCurrentButton.keycode 0)
    else
      (pCurrentButton, input)
  else
    (pCurrentButton, input)

/-- The `for (counter = 0; counter < numberOfButtons; counter++)` loop of
`touchProcess`: the first numeric argument is the number of iterations left, the
second is `counter`. -/
def touchProcess_for (i : Nat) :
    Nat → Nat → List buttonInfo → input_dev → Option (List buttonInfo × input_dev)
  | 0, _, buttons, input => some (buttons, input)
  | n + 1, counter, buttons, input =>
    match buttons[counter]? with
    | none => none
    | some pCurrentButton =>
      let (pCurrentButton, input) := touchProcess_switch i pCurrentButton input
      touchProcess_for i n (counter + 1) (buttons.set counter pCurrentButton) input

/-- `touchProcess`: read STAT0 into `i` (which stays 0 when the read fails), update
every button against `i`, then sync once. Nothing is done without `pDevice`, and
after the read nothing more is done when `buttons` or `input` is NULL. -/
def touchProcess (hdr : sx9310_h) (this : sx93XX) : Option sx93XX :=
  match this.pDevice with
  | none => some this
  | some _ =>
    match read_register this hdr.SX9310_STAT0_REG 0 with
    | none => none
    | some (_, i, this) =>
      match this.pDevice with
      | none => some this
      | some pDevice =>
        let numberOfButtons := pDevice.pbuttonInformation.buttonSize
        match pDevice.pbuttonInformation.buttons, pDevice.pbuttonInformation.input with
        | some buttons, some input =>
          match touchProcess_for i numberOfButtons 0 buttons input with
          | none => none
          | some (buttons, input) =>
            let input := input_sync input
            some { this with
              pDevice := some { pDevice with
                pbuttonInformation := { pDevice.pbuttonInformation with
                  buttons := some buttons
                  input := some input } } }
        | _, _ => some this

/-! ## Probe, deferred work and the dispatch cycle -/

/-- The function pointers `sx9310_probe` stores in the device: `init`,
`refreshStatus`, and the handler table, zeroed by `kzalloc` and filled only when
`MAX_NUM_STATUS_BITS >= 8`: entries 5 (RELEASE_STAT) and 6 (TOUCH_STAT) hold
`touchProcess`, all others are NULL. -/
def sx9310_probe_funcs (hdr : sx9310_h) : sx93XX_funcs where
  init := some (initialize_device hdr)
  refreshStatus := read_regStat hdr
  statusFunc := fun counter =>
    if hdr.MAX_NUM_STATUS_BITS ≥ 8 then
      match counter with
      | 5 => some (touchProcess hdr)
      | 6 => some (touchProcess hdr)
      | _ => none
    else
      none

/-- The kernel call `cancel_delayed_work(&this->dworker)`: a pending work is
removed. -/
def cancel_delayed_work (this : sx93XX) : sx93XX :=
  { this with dworker := none }

/-- The kernel call `schedule_delayed_work(&this->dworker, delay)`: the work is
queued unless it is already pending. -/
def schedule_delayed_work (this : sx93XX) (delay : Nat) : sx93XX :=
  match this.dworker with
  | some _ => this
  | none => { this with dworker := some delay }

/-- `sx93XX_schedule_work`: cancel the pending work, then queue it with `delay`. -/
def sx93XX_schedule_work (this : sx93XX) (delay : Nat) : sx93XX :=
  schedule_delayed_work (cancel_delayed_work this) delay

/-- The loop `while ((++counter) < MAX_NUM_STATUS_BITS)` shared by
`sx93XX_process_interrupt` and `sx93XX_worker_func`: the first numeric argument is
the number of iterations left, the second is `counter`. -/
def statusFunc_while (fn : sx93XX_funcs) (status : Nat) : Nat → Nat → sx93XX → Option sx93XX
  | 0, _, this => some this
  | n + 1, counter, this =>
    if (status >>> counter) &&& 0x01 ≠ 0 then
      match fn.statusFunc counter with
      | some handler =>
        match handler this with
        | none => none
        | some this => statusFunc_while fn status n (counter + 1) this
      | none => statusFunc_while fn status n (counter + 1) this
    else
      statusFunc_while fn status n (counter + 1) this

/-- `sx93XX_worker_func` of the deferred-work build (`USE_THREADED_IRQ` not defined):
refresh the status, dispatch, and re-queue itself when the timer is in use and the
line was low. `jiffies` is the kernel's `msecs_to_jiffies`. -/
def sx93XX_worker_func (hdr : sx9310_h) (jiffies : Nat → Nat) (fn : sx93XX_funcs)
    (this : sx93XX) : Option sx93XX :=
  let nirqLow : Nat :=
    if this.useIrqTimer ≠ 0 then
      match this.get_nirq_low with
      | none => 1
      | some v => if v ≠ 0 then 1 else 0
    else 0
  match fn.refreshStatus this with
  | none => none
  | some (status, this) =>
    match statusFunc_while fn status hdr.MAX_NUM_STATUS_BITS 0 this with
    | none => none
    | some this =>
      if this.useIrqTimer ≠ 0 ∧ nirqLow ≠ 0 then
        some (sx93XX_schedule_work this (jiffies this.irqTimeout))
      else
        some this

/-- The kernel's workqueue at the moment the delay of the pending work has elapsed:
the work stops being pending and its function, `sx93XX_worker_func` (installed by
`INIT_DELAYED_WORK` in `sx93XX_init`), runs once. Without pending work nothing
runs. The first component of the result tells whether the worker ran. -/
def run_delayed_work (hdr : sx9310_h) (jiffies : Nat → Nat) (fn : sx93XX_funcs)
    (this : sx93XX) : Option (Bool × sx93XX) :=
  match this.dworker with
  | none => some (false, this)
  | some _ =>
    match sx93XX_worker_func hdr jiffies fn { this with dworker := none } with
    | none => none
    | some this => some (true, this)

/-- `sx93XX_process_interrupt` of the threaded build (`USE_THREADED_IRQ`). -/
def sx93XX_process_interrupt (hdr : sx9310_h) (jiffies : Nat → Nat) (fn : sx93XX_funcs)
    (this : sx93XX) (nirqlow : Nat) : Option sx93XX :=
  match fn.refreshStatus this with
  | none => none
  | some (status, this) =>
    match statusFunc_while fn status hdr.MAX_NUM_STATUS_BITS 0 this with
    | none => none
    | some this =>
      if this.useIrqTimer ≠ 0 ∧ nirqlow ≠ 0 then
        some (schedule_delayed_work (cancel_delayed_work this) (jiffies this.irqTimeout))
      else
        some this

/-! ## The button update of the specification -/

/-- The touched test in the words of the specification: every bit of the button's
mask is set in the status. -/
def spec_touched (status : Nat) (b : buttonInfo) : Prop :=
  ∀ j : Nat, b.mask.testBit j = true → status.testBit j = true

/-- The touched test is decided by the comparison `(status & mask) == mask`. -/
instance spec_touched_decidable (status : Nat) (b : buttonInfo) :
    Decidable (spec_touched status b) :=
  decidable_of_iff (status &&& b.mask = b.mask) (by
    unfold spec_touched
    constructor
    · intro h j hj
      have hbit := congrArg (fun x => x.testBit j) h
      simp only [Nat.testBit_and, hj, Bool.and_true] at hbit
      exact hbit
    · intro h
      apply Nat.eq_of_testBit_eq
      intro j
      rw [Nat.testBit_and]
      cases hm : b.mask.testBit j
      · simp
      · simp [h j hm])

/-- The per-button rule of the Button State Machine in the words of the
specification: Idle and touched gives a press and Active; Active and not touched
gives a release and Idle; otherwise nothing is emitted and the button is left as
it is. The result is the button after the update and the events emitted for it. -/
def spec_update (status : Nat) (b : buttonInfo) : buttonInfo × List input_event :=
  if b.state = IDLE ∧ spec_touched status b then
    ({ b with state := ACTIVE }, [.key b.keycode 1])
  else if b.state = ACTIVE ∧ ¬ spec_touched status b then
    ({ b with state := IDLE }, [.key b.keycode 0])
  else
    (b, [])

/-! ## Observing a device -/

/-- The device `this` with the bus `i2c` after the transfers `log`, and with the
device data `pDevice` whose button array is `buttons` and whose input device has
received `events`. All other fields are those of `this`, `i2c` and `pDevice`. -/
def device_with (this : sx93XX) (i2c : i2c_client) (pDevice : sx9310)
    (log : List i2c_msg) (buttons : List buttonInfo) (events : List input_event) : sx93XX :=
  { this with
    bus := some { i2c with log := log }
    pDevice := some { pDevice with
      pbuttonInformation := { pDevice.pbuttonInformation with
        buttons := some buttons
        input := some { events := events } } } }

/-- The transfers made on the bus of a device, oldest first. -/
def bus_log (this : sx93XX) : List i2c_msg :=
  match this.bus with
  | some i2c => i2c.log
  | none => []

/-- The button array of a device. -/
def button_table (this : sx93XX) : List buttonInfo :=
  match this.pDevice with
  | some pDevice => pDevice.pbuttonInformation.buttons.getD []
  | none => []

/-- The calls the input device of a device has received, oldest first. -/
def sink_events (this : sx93XX) : List input_event :=
  match this.pDevice with
  | some pDevice =>
    match pDevice.pbuttonInformation.input with
    | some input => input.events
    | none => []
  | none => []

/-- Running `touchProcess` a number of times in a row. -/
def touchProcess_times (hdr : sx9310_h) : Nat → sx93XX → Option sx93XX
  | 0, this => some this
  | n + 1, this =>
    match touchProcess hdr this with
    | none => none
    | some this => touchProcess_times hdr n this

/-- Two `manual_offset_calibration` calls in a row; the result is the value
returned by the second call. -/
def manual_offset_calibration_twice (hdr : sx9310_h) (this : sx93XX) :
    Option (Int × sx93XX) :=
  match manual_offset_calibration hdr this with
  | none => none
  | some (_, this) => manual_offset_calibration hdr this

/-- The key reports among the calls an input device received. -/
def key_events (events : List input_event) : List input_event :=
  events.filter fun e => e != .sync

/-- A transport on which every transfer succeeds and a read returns 0x20, 0x20,
0, 0, 0x20, 0x20, ... according to the number of transfers made before it. -/
def edge_adapter : List i2c_msg → i2c_msg → Int
  | log, _ => if log.length = 2 ∨ log.length = 3 then 0 else 0x20

/-! ## Test devices -/

/-- Header constants used by the test devices: IRQSTAT at 0, STAT0 at 1, the
soft-reset register at 0x7F with command 0xDE, and eight status bits. -/
def test_h : sx9310_h where
  SX9310_IRQSTAT_REG := 0x00
  SX9310_STAT0_REG := 0x01
  SX9310_SOFTRESET_REG := 0x7F
  SX9310_SOFTRESET := 0xDE
  MAX_NUM_STATUS_BITS := 8

/-- A transport on which every write succeeds, a read of register 0 returns
`irqstat` and a read of any other register returns `stat0`. -/
def test_adapter (irqstat stat0 : Int) : List i2c_msg → i2c_msg → Int
  | _, .send _ _ => 2
  | _, .read_byte_data command => if command = 0 then irqstat else stat0

/-- A transport on which every write succeeds and every read fails with -5. -/
def failing_read_adapter : List i2c_msg → i2c_msg → Int
  | _, .send _ _ => 2
  | _, .read_byte_data _ => -5

/-- A transport on which the write of value 0x22 fails with -5 and every other
transfer succeeds, reads returning 0. -/
def failing_write_adapter : List i2c_msg → i2c_msg → Int
  | _, .send _ value => if value = 0x22 then -5 else 2
  | _, .read_byte_data _ => 0

/-- The register program of the test devices: three entries. -/
def test_program : sx9310_platform_data where
  i2c_reg_num := 3
  pi2c_reg := [⟨0x10, 0x11⟩, ⟨0x20, 0x22⟩, ⟨0x30, 0x33⟩]

/-- A probed device on the given transport with the given buttons: nothing sent or
reported yet, interrupt enabled, no timer, no pending work. -/
def test_device (adapter : List i2c_msg → i2c_msg → Int) (buttons : List buttonInfo) :
    sx93XX where
  bus := some { adapter := adapter, log := [] }
  pDevice := some {
    pbuttonInformation := {
      buttons := some buttons
      buttonSize := buttons.length
      input := some { events := [] } }
    hw := some test_program }
  irq_disabled := 0
  useIrqTimer := 0
  irqTimeout := 0
  get_nirq_low := some 1
  irq_depth := 0
  dworker := none

/-! ## Shared lemmas -/

/-- Every mask bit is set in the status exactly when `(status & mask) == mask`. -/
theorem spec_touched_iff (status : Nat) (b : buttonInfo) :
    spec_touched status b ↔ status &&& b.mask = b.mask := by
  unfold spec_touched
  constructor
  · intro h
    apply Nat.eq_of_testBit_eq
    intro j
    rw [Nat.testBit_and]
    cases hm : b.mask.testBit j
    · simp
    · simp [h j hm]
  · intro h j hj
    have hbit := congrArg (fun x => x.testBit j) h
    simp only [Nat.testBit_and, hj, Bool.and_true] at hbit
    exact hbit

/-- The `switch` of `touchProcess` computes the per-button rule of the specification. -/
theorem touchProcess_switch_eq (i : Nat) (b : buttonInfo) (input : input_dev) :
    touchProcess_switch i b input =
      ((spec_update i b).1, { events := input.events ++ (spec_update i b).2 }) := by
  unfold touchProcess_switch spec_update input_report_key
  by_cases h0 : b.state = IDLE <;> by_cases h1 : b.state = ACTIVE <;>
    by_cases ht : i &&& b.mask = b.mask <;>
    simp [h0, h1, ht, spec_touched_iff]

/-- The button loop of `touchProcess`, started at index `pre.length` with as many
iterations as buttons are left, updates every remaining button by the rule of the
specification and reports their events in table order. -/
theorem touchProcess_for_eq (i : Nat) (bs : List buttonInfo) :
    ∀ (pre : List buttonInfo) (input : input_dev),
      touchProcess_for i bs.length pre.length (pre ++ bs) input =
        some (pre ++ bs.map (fun b => (spec_update i b).1),
              { events := input.events ++ bs.flatMap (fun b => (spec_update i b).2) }) := by
  induction bs with
  | nil => intro pre input; simp [touchProcess_for]
  | cons b bs ih =>
    intro pre input
    have hget : (pre ++ b :: bs)[pre.length]? = some b := by
      rw [List.getElem?_append_right (le_refl _)]; simp
    have hset : (pre ++ b :: bs).set pre.length (spec_update i b).1 =
        (pre ++ [(spec_update i b).1]) ++ bs := by
      simp [List.set_append_right]
    simp only [List.length_cons, touchProcess_for, hget, touchProcess_switch_eq, hset]
    have hrest := ih (pre ++ [(spec_update i b).1])
      { events := input.events ++ (spec_update i b).2 }
    simp only [List.length_append, List.length_singleton] at hrest
    rw [hrest]
    simp [List.flatMap_cons]

/-- A device whose bus, device data, button array and input device are present is
the `device_with` of its parts. -/
theorem eq_device_with (this : sx93XX) (i2c : i2c_client) (pDevice : sx9310)
    (bs : List buttonInfo) (inp : input_dev)
    (hbus : this.bus = some i2c) (hdev : this.pDevice = some pDevice)
    (hbuttons : pDevice.pbuttonInformation.buttons = some bs)
    (hinput : pDevice.pbuttonInformation.input = some inp) :
    this = device_with this i2c pDevice i2c.log bs inp.events := by
  obtain ⟨bus, pd, a, b, c, d, e, f⟩ := this
  obtain ⟨info, hw⟩ := pDevice
  obtain ⟨buttons, size, input⟩ := info
  simp only at hbus hdev hbuttons hinput
  subst hbus hdev hbuttons hinput
  rfl

/-- The closed form of `touchProcess` on a device with a bus, a button table and an
input device. `i` is the status byte it works with: the byte returned by the STAT0
read, or 0, the initial value of `i`, when the read failed. -/
theorem touchProcess_device_with (hdr : sx9310_h) (this : sx93XX) (i2c : i2c_client)
    (pDevice : sx9310) (log : List i2c_msg) (bs : List buttonInfo)
    (evs : List input_event) (i : Nat)
    (hsize : pDevice.pbuttonInformation.buttonSize = bs.length)
    (hi : i = if i2c.adapter log (.read_byte_data (hdr.SX9310_STAT0_REG % 256)) ≥ 0 then
            (i2c.adapter log (.read_byte_data (hdr.SX9310_STAT0_REG % 256))).toNat % 256
          else 0) :
    touchProcess hdr (device_with this i2c pDevice log bs evs) =
      some (device_with this i2c pDevice
        (log ++ [.read_byte_data (hdr.SX9310_STAT0_REG % 256)])
        (bs.map fun b => (spec_update i b).1)
        (evs ++ bs.flatMap (fun b => (spec_update i b).2) ++ [.sync])) := by
  subst hi
  unfold touchProcess read_register i2c_smbus_read_byte_data device_with
  simp only [hsize]
  split_ifs with hr
  · have hfor := touchProcess_for_eq
      ((i2c.adapter log (.read_byte_data (hdr.SX9310_STAT0_REG % 256))).toNat % 256)
      bs [] { events := evs }
    simp only [List.length_nil, List.nil_append] at hfor
    simp [hfor, input_sync]
  · have hfor := touchProcess_for_eq 0 bs [] { events := evs }
    simp only [List.length_nil, List.nil_append] at hfor
    simp [hfor, input_sync]

/-- The loop's bit test `(status >> counter) & 0x01` is `Nat.testBit`. -/
theorem status_bit_iff (status counter : Nat) :
    ((status >>> counter) &&& 0x01 ≠ 0) ↔ status.testBit counter = true := by
  unfold Nat.testBit
  rw [Nat.land_comm]
  simp

theorem statusFunc_while_eq (fn : sx93XX_funcs) (status : Nat) :
    ∀ (n counter : Nat) (this : sx93XX),
      statusFunc_while fn status n counter this =
        (((List.range' counter n).filter fun c => status.testBit c).filterMap
            fn.statusFunc).foldlM (fun this handler => handler this) this := by
  intro n
  induction n with
  | zero => intro counter this; simp [statusFunc_while]
  | succ n ih =>
    intro counter this
    rw [statusFunc_while, List.range'_succ]
    by_cases hbit : status.testBit counter = true
    · rw [if_pos ((status_bit_iff status counter).2 hbit), List.filter_cons_of_pos hbit]
      cases hfn : fn.statusFunc counter with
      | none => simp [hfn, ih]
      | some handler =>
        simp only [List.filterMap_cons, hfn, List.foldlM_cons]
        cases handler this with
        | none => rfl
        | some this1 => simp [ih]
    · rw [if_neg (fun h => hbit ((status_bit_iff status counter).1 h)),
        List.filter_cons_of_neg hbit]
      exact ih (counter + 1) this

/-- The closed form of `ForcetoTouched` on a device with a first button and an input
device. -/
theorem ForcetoTouched_eq (this : sx93XX) (pDevice : sx9310) (b : buttonInfo)
    (rest : List buttonInfo) (inp : input_dev)
    (hdev : this.pDevice = some pDevice)
    (hbuttons : pDevice.pbuttonInformation.buttons = some (b :: rest))
    (hinput : pDevice.pbuttonInformation.input = some inp) :
    ForcetoTouched this =
      some { this with
        pDevice := some { pDevice with
          pbuttonInformation := { pDevice.pbuttonInformation with
            buttons := some ({ b with state := ACTIVE } :: rest)
            input := some { events := inp.events ++ [.key b.keycode 1, .sync] } } } } := by
  unfold ForcetoTouched
  simp only [hdev, hbuttons, hinput]
  simp [input_sync, input_report_key]

/-- The closed form of `write_register` on a device with a bus. -/
theorem write_register_eq (this : sx93XX) (i2c : i2c_client) (address value : Nat)
    (hbus : this.bus = some i2c) :
    write_register this address value =
      if i2c.adapter i2c.log (.send (address % 256) (value % 256)) < 0 then
        (ForcetoTouched { this with bus := some { i2c with
            log := i2c.log ++ [.send (address % 256) (value % 256)] } }).map
          fun this => (i2c.adapter i2c.log (.send (address % 256) (value % 256)), this)
      else
        some (i2c.adapter i2c.log (.send (address % 256) (value % 256)),
          { this with bus := some { i2c with
            log := i2c.log ++ [.send (address % 256) (value % 256)] } }) := by
  unfold write_register i2c_master_send
  simp only [hbus]

/-- The closed form of `read_regStat` on a device with a bus. -/
theorem read_regStat_eq (hdr : sx9310_h) (this : sx93XX) (i2c : i2c_client)
    (hbus : this.bus = some i2c) :
    read_regStat hdr this =
      some (if 0 ≤ i2c.adapter i2c.log (.read_byte_data (hdr.SX9310_IRQSTAT_REG % 256)) then
              ((i2c.adapter i2c.log
                (.read_byte_data (hdr.SX9310_IRQSTAT_REG % 256))).toNat % 256) &&& 0xFF
            else 0,
            { this with bus := some { i2c with
                log := i2c.log ++ [.read_byte_data (hdr.SX9310_IRQSTAT_REG % 256)] } }) := by
  unfold read_regStat read_register i2c_smbus_read_byte_data
  simp only [hbus]
  split_ifs with h1
  · simp
  · simp

/-- On a device with a first button and an input device, `write_register` always
returns, after appending its transfer to the bus log; a failed transfer makes the
first button `ACTIVE` and reports its press. -/
theorem write_register_device_with (this : sx93XX) (i2c : i2c_client) (pDevice : sx9310)
    (log : List i2c_msg) (b : buttonInfo) (rest : List buttonInfo)
    (evs : List input_event) (address value : Nat) :
    write_register (device_with this i2c pDevice log (b :: rest) evs) address value =
      some (i2c.adapter log (.send (address % 256) (value % 256)),
        device_with this i2c pDevice (log ++ [.send (address % 256) (value % 256)])
          ((if i2c.adapter log (.send (address % 256) (value % 256)) < 0 then
              { b with state := ACTIVE } else b) :: rest)
          (if i2c.adapter log (.send (address % 256) (value % 256)) < 0 then
              evs ++ [.key b.keycode 1, .sync] else evs)) := by
  rw [write_register_eq _ { i2c with log := log } address value rfl]
  split_ifs with h
  · rw [ForcetoTouched_eq _
      { pDevice with pbuttonInformation := { pDevice.pbuttonInformation with
          buttons := some (b :: rest), input := some { events := evs } } }
      b rest { events := evs } rfl rfl rfl]
    rfl
  · rfl

/-- The same, without naming the button and the events after the call. -/
theorem write_register_step (this : sx93XX) (i2c : i2c_client) (pDevice : sx9310)
    (log : List i2c_msg) (b : buttonInfo) (rest : List buttonInfo)
    (evs : List input_event) (address value : Nat) :
    ∃ b1 evs1,
      write_register (device_with this i2c pDevice log (b :: rest) evs) address value =
        some (i2c.adapter log (.send (address % 256) (value % 256)),
          device_with this i2c pDevice (log ++ [.send (address % 256) (value % 256)])
            (b1 :: rest) evs1) :=
  ⟨_, _, write_register_device_with this i2c pDevice log b rest evs address value⟩

/-- The register loop of `hw_init` sends every remaining entry of the program, in
program order, whatever the transport answers. -/
theorem hw_init_while_sends (this : sx93XX) (i2c : i2c_client) (pDevice : sx9310)
    (pdata : sx9310_platform_data) (rest : List buttonInfo) (todo : List smtc_reg_data) :
    ∀ (done : List smtc_reg_data) (log : List i2c_msg) (b : buttonInfo)
      (evs : List input_event),
      pdata.pi2c_reg = done ++ todo →
      ∃ b1 evs1,
        hw_init_while pdata todo.length done.length
            (device_with this i2c pDevice log (b :: rest) evs) =
          some (device_with this i2c pDevice
            (log ++ todo.map fun entry => .send (entry.reg % 256) (entry.val % 256))
            (b1 :: rest) evs1) := by
  induction todo with
  | nil => intro done log b evs _; exact ⟨b, evs, by simp [hw_init_while]⟩
  | cons entry todo ih =>
    intro done log b evs hprog
    have hget : pdata.pi2c_reg[done.length]? = some entry := by
      rw [hprog, List.getElem?_append_right (le_refl _)]; simp
    obtain ⟨b1, evs1, hw⟩ :=
      write_register_step this i2c pDevice log b rest evs entry.reg entry.val
    obtain ⟨b2, evs2, hrest⟩ := ih (done ++ [entry])
      (log ++ [.send (entry.reg % 256) (entry.val % 256)]) b1 evs1 (by simp [hprog])
    refine ⟨b2, evs2, ?_⟩
    simp only [List.length_cons, hw_init_while, hget, hw]
    simp only [List.length_append, List.length_singleton] at hrest
    rw [hrest]
    simp

/-- With platform data whose `i2c_reg_num` is the length of its program, `hw_init`
sends the whole program in order, whatever the transport answers. -/
theorem hw_init_sends (this : sx93XX) (i2c : i2c_client) (pDevice : sx9310)
    (pdata : sx9310_platform_data) (log : List i2c_msg) (b : buttonInfo)
    (rest : List buttonInfo) (evs : List input_event)
    (hhw : pDevice.hw = some pdata) (hnum : pdata.i2c_reg_num = pdata.pi2c_reg.length) :
    ∃ b1 evs1,
      hw_init (device_with this i2c pDevice log (b :: rest) evs) =
        some (device_with this i2c pDevice
          (log ++ pdata.pi2c_reg.map fun entry => .send (entry.reg % 256) (entry.val % 256))
          (b1 :: rest) evs1) := by
  obtain ⟨b1, evs1, hloop⟩ := hw_init_while_sends this i2c pDevice pdata rest
    pdata.pi2c_reg [] log b evs (by simp)
  refine ⟨b1, evs1, ?_⟩
  unfold hw_init
  simp only [device_with, hhw, hnum, List.length_nil] at hloop ⊢
  exact hloop

/-- The status read appends one transfer to the bus log and changes nothing else. -/
theorem read_regStat_device_with (hdr : sx9310_h) (this : sx93XX) (i2c : i2c_client)
    (pDevice : sx9310) (log : List i2c_msg) (bs : List buttonInfo)
    (evs : List input_event) :
    ∃ status,
      read_regStat hdr (device_with this i2c pDevice log bs evs) =
        some (status, device_with this i2c pDevice
          (log ++ [.read_byte_data (hdr.SX9310_IRQSTAT_REG % 256)]) bs evs) :=
  ⟨_, read_regStat_eq hdr (device_with this i2c pDevice log bs evs)
    { i2c with log := log } rfl⟩

/-- On a device with a bus, a register program, a first button, an input device and
an interrupt-line callback, `initialize` returns 0 after sending the soft reset,
every program entry in order, the calibration trigger and the status read,
whatever the transport answers. -/
theorem initialize_device_sends (hdr : sx9310_h) (this : sx93XX) (i2c : i2c_client)
    (pDevice : sx9310) (pdata : sx9310_platform_data) (log : List i2c_msg)
    (b : buttonInfo) (rest : List buttonInfo) (evs : List input_event) (nirq : Int)
    (hhw : pDevice.hw = some pdata) (hnum : pdata.i2c_reg_num = pdata.pi2c_reg.length)
    (hnirq : this.get_nirq_low = some nirq) :
    ∃ b1 evs1,
      initialize_device hdr (device_with this i2c pDevice log (b :: rest) evs) =
        some (0, device_with
          { this with irq_disabled := 0, irq_depth := this.irq_depth + 1 - 1 } i2c pDevice
          (log ++ [.send (hdr.SX9310_SOFTRESET_REG % 256) (hdr.SX9310_SOFTRESET % 256)] ++
            (pdata.pi2c_reg.map fun entry => .send (entry.reg % 256) (entry.val % 256)) ++
            [.send (hdr.SX9310_IRQSTAT_REG % 256) 0xFF] ++
            [.read_byte_data (hdr.SX9310_IRQSTAT_REG % 256)])
          (b1 :: rest) evs1) := by
  obtain ⟨b1, evs1, hreset⟩ := write_register_step
    { this with irq_disabled := 1, irq_depth := this.irq_depth + 1 } i2c pDevice log
    b rest evs hdr.SX9310_SOFTRESET_REG hdr.SX9310_SOFTRESET
  obtain ⟨b2, evs2, hprogram⟩ := hw_init_sends
    { this with irq_disabled := 1, irq_depth := this.irq_depth + 1 } i2c pDevice pdata
    (log ++ [.send (hdr.SX9310_SOFTRESET_REG % 256) (hdr.SX9310_SOFTRESET % 256)])
    b1 rest evs1 hhw hnum
  obtain ⟨b3, evs3, hcal⟩ := write_register_step
    { this with irq_disabled := 1, irq_depth := this.irq_depth + 1 } i2c pDevice
    (log ++ [.send (hdr.SX9310_SOFTRESET_REG % 256) (hdr.SX9310_SOFTRESET % 256)] ++
      pdata.pi2c_reg.map (fun entry => .send (entry.reg % 256) (entry.val % 256)))
    b2 rest evs2 hdr.SX9310_IRQSTAT_REG 0xFF
  obtain ⟨status, hstat⟩ := read_regStat_device_with hdr
    { this with irq_disabled := 0, irq_depth := this.irq_depth + 1 - 1 } i2c pDevice
    (log ++ [.send (hdr.SX9310_SOFTRESET_REG % 256) (hdr.SX9310_SOFTRESET % 256)] ++
      pdata.pi2c_reg.map (fun entry => .send (entry.reg % 256) (entry.val % 256)) ++
      [.send (hdr.SX9310_IRQSTAT_REG % 256) (0xFF % 256)])
    (b3 :: rest) evs3
  refine ⟨b3, evs3, ?_⟩
  unfold initialize_device disable_irq
  change (match write_register (device_with
      { this with irq_disabled := 1, irq_depth := this.irq_depth + 1 } i2c pDevice log
      (b :: rest) evs) hdr.SX9310_SOFTRESET_REG hdr.SX9310_SOFTRESET with
    | none => none
    | some (_, this) => _) = _
  rw [hreset]
  have hn : (device_with { this with irq_disabled := 1, irq_depth := this.irq_depth + 1 }
      i2c pDevice
      (log ++ [.send (hdr.SX9310_SOFTRESET_REG % 256) (hdr.SX9310_SOFTRESET % 256)])
      (b1 :: rest) evs1).get_nirq_low = some nirq := hnirq
  simp only [hn, hprogram, manual_offset_calibration, hcal, enable_irq]
  simp only [device_with] at hstat ⊢
  rw [hstat]

/-- A touched Idle button is pressed. -/
theorem spec_update_press (m keycode : Nat) :
    spec_update m ⟨keycode, m, IDLE⟩ = (⟨keycode, m, ACTIVE⟩, [.key keycode 1]) := by
  simp [spec_update, spec_touched_iff]

/-- A touched Active button stays as it is. -/
theorem spec_update_hold (m keycode : Nat) :
    spec_update m ⟨keycode, m, ACTIVE⟩ = (⟨keycode, m, ACTIVE⟩, []) := by
  simp [spec_update, spec_touched_iff]

/-- An Active button with a non-zero mask is released by the status 0. -/
theorem spec_update_release (m keycode : Nat) (hm : 0 < m) :
    spec_update 0 ⟨keycode, m, ACTIVE⟩ = (⟨keycode, m, IDLE⟩, [.key keycode 0]) := by
  have hne : ¬ (0 = m) := by omega
  simp [spec_update, spec_touched_iff, hne]

/-- An Idle button with a non-zero mask stays as it is under the status 0. -/
theorem spec_update_idle (m keycode : Nat) (hm : 0 < m) :
    spec_update 0 ⟨keycode, m, IDLE⟩ = (⟨keycode, m, IDLE⟩, []) := by
  have hne : ¬ (0 = m) := by omega
  simp [spec_update, spec_touched_iff, hne]

/-- Five `touchProcess` runs on a device with the single button `(keycode, m, IDLE)`
while the STAT0 reads return `m, m, 0, 0, m`. -/
theorem touchProcess_times_edges (hdr : sx9310_h) (this : sx93XX) (i2c : i2c_client)
    (pDevice : sx9310) (log : List i2c_msg) (evs : List input_event) (keycode m : Nat)
    (hsize : pDevice.pbuttonInformation.buttonSize = 1)
    (hpos : 0 < m) (hbyte : m < 256)
    (h1 : i2c.adapter log (.read_byte_data (hdr.SX9310_STAT0_REG % 256)) = m)
    (h2 : i2c.adapter (log ++ [.read_byte_data (hdr.SX9310_STAT0_REG % 256)])
      (.read_byte_data (hdr.SX9310_STAT0_REG % 256)) = m)
    (h3 : i2c.adapter (log ++ [.read_byte_data (hdr.SX9310_STAT0_REG % 256)] ++
        [.read_byte_data (hdr.SX9310_STAT0_REG % 256)])
      (.read_byte_data (hdr.SX9310_STAT0_REG % 256)) = 0)
    (h4 : i2c.adapter (log ++ [.read_byte_data (hdr.SX9310_STAT0_REG % 256)] ++
        [.read_byte_data (hdr.SX9310_STAT0_REG % 256)] ++
        [.read_byte_data (hdr.SX9310_STAT0_REG % 256)])
      (.read_byte_data (hdr.SX9310_STAT0_REG % 256)) = 0)
    (h5 : i2c.adapter (log ++ [.read_byte_data (hdr.SX9310_STAT0_REG % 256)] ++
        [.read_byte_data (hdr.SX9310_STAT0_REG % 256)] ++
        [.read_byte_data (hdr.SX9310_STAT0_REG % 256)] ++
        [.read_byte_data (hdr.SX9310_STAT0_REG % 256)])
      (.read_byte_data (hdr.SX9310_STAT0_REG % 256)) = m) :
    touchProcess_times hdr 5 (device_with this i2c pDevice log [⟨keycode, m, IDLE⟩] evs) =
      some (device_with this i2c pDevice
        (log ++ [.read_byte_data (hdr.SX9310_STAT0_REG % 256)] ++
          [.read_byte_data (hdr.SX9310_STAT0_REG % 256)] ++
          [.read_byte_data (hdr.SX9310_STAT0_REG % 256)] ++
          [.read_byte_data (hdr.SX9310_STAT0_REG % 256)] ++
          [.read_byte_data (hdr.SX9310_STAT0_REG % 256)])
        [⟨keycode, m, ACTIVE⟩]
        (evs ++ [.key keycode 1, .sync, .sync, .key keycode 0, .sync, .sync,
                 .key keycode 1, .sync])) := by
  have e1 := touchProcess_device_with hdr this i2c pDevice log [⟨keycode, m, IDLE⟩] evs m
    (by simpa using hsize) (by rw [h1]; simp [Nat.mod_eq_of_lt hbyte])
  have e2 := touchProcess_device_with hdr this i2c pDevice
    (log ++ [.read_byte_data (hdr.SX9310_STAT0_REG % 256)]) [⟨keycode, m, ACTIVE⟩]
    (evs ++ [.key keycode 1] ++ [.sync]) m
    (by simpa using hsize) (by rw [h2]; simp [Nat.mod_eq_of_lt hbyte])
  have e3 := touchProcess_device_with hdr this i2c pDevice
    (log ++ [.read_byte_data (hdr.SX9310_STAT0_REG % 256)] ++
      [.read_byte_data (hdr.SX9310_STAT0_REG % 256)]) [⟨keycode, m, ACTIVE⟩]
    (evs ++ [.key keycode 1] ++ [.sync] ++ [] ++ [.sync]) 0
    (by simpa using hsize) (by rw [h3]; simp)
  have e4 := touchProcess_device_with hdr this i2c pDevice
    (log ++ [.read_byte_data (hdr.SX9310_STAT0_REG % 256)] ++
      [.read_byte_data (hdr.SX9310_STAT0_REG % 256)] ++
      [.read_byte_data (hdr.SX9310_STAT0_REG % 256)]) [⟨keycode, m, IDLE⟩]
    (evs ++ [.key keycode 1] ++ [.sync] ++ [] ++ [.sync] ++ [.key keycode 0] ++ [.sync]) 0
    (by simpa using hsize) (by rw [h4]; simp)
  have e5 := touchProcess_device_with hdr this i2c pDevice
    (log ++ [.read_byte_data (hdr.SX9310_STAT0_REG % 256)] ++
      [.read_byte_data (hdr.SX9310_STAT0_REG % 256)] ++
      [.read_byte_data (hdr.SX9310_STAT0_REG % 256)] ++
      [.read_byte_data (hdr.SX9310_STAT0_REG % 256)]) [⟨keycode, m, IDLE⟩]
    (evs ++ [.key keycode 1] ++ [.sync] ++ [] ++ [.sync] ++ [.key keycode 0] ++ [.sync]
      ++ [] ++ [.sync]) m
    (by simpa using hsize) (by rw [h5]; simp [Nat.mod_eq_of_lt hbyte])
  simp only [List.map_cons, List.map_nil, List.flatMap_cons, List.flatMap_nil,
    List.append_nil, spec_update_press, spec_update_hold, spec_update_release _ _ hpos,
    spec_update_idle _ _ hpos] at e1 e2 e3 e4 e5
  simp only [touchProcess_times, e1, e2, e3, e4, e5]
  simp

/-- The rule of the specification emits key events only. -/
theorem spec_update_count_sync (i : Nat) (b : buttonInfo) :
    (spec_update i b).2.count .sync = 0 := by
  unfold spec_update
  split_ifs <;> simp

/-- The key events of a whole table hold no sync. -/
theorem flatMap_spec_update_count_sync (i : Nat) (bs : List buttonInfo) :
    (bs.flatMap fun b => (spec_update i b).2).count .sync = 0 := by
  induction bs with
  | nil => simp
  | cons b bs ih => simp [List.flatMap_cons, List.count_append, spec_update_count_sync, ih]

/-- On a device with a bus, a button table and an input device `touchProcess`
always returns, having reported some key events and then one sync. -/
theorem touchProcess_step (hdr : sx9310_h) (this : sx93XX) (i2c : i2c_client)
    (pDevice : sx9310) (log : List i2c_msg) (bs : List buttonInfo)
    (evs : List input_event)
    (hsize : pDevice.pbuttonInformation.buttonSize = bs.length) :
    ∃ bs1 keys,
      touchProcess hdr (device_with this i2c pDevice log bs evs) =
        some (device_with this i2c pDevice
          (log ++ [.read_byte_data (hdr.SX9310_STAT0_REG % 256)]) bs1
          (evs ++ keys ++ [.sync])) ∧
      bs1.length = bs.length ∧ keys.count .sync = 0 :=
  ⟨_, _, touchProcess_device_with hdr this i2c pDevice log bs evs _ hsize rfl,
    by simp, flatMap_spec_update_count_sync _ bs⟩

/-- The table of `sx9310_probe` has no handler at position 8 or above. -/
theorem probe_statusFunc_none (hdr : sx9310_h) (c : Nat) (hc : 8 ≤ c) :
    (sx9310_probe_funcs hdr).statusFunc c = none := by
  unfold sx9310_probe_funcs
  simp only
  split_ifs
  · split
    · omega
    · omega
    · rfl
  · rfl

/-- With at least eight status bits, the handlers the table of `sx9310_probe` holds at
the set bits of a status are `touchProcess` for bit 5 and `touchProcess` for bit 6. -/
theorem probe_handlers (hdr : sx9310_h) (status : Nat)
    (hmax : 8 ≤ hdr.MAX_NUM_STATUS_BITS) :
    ((List.range hdr.MAX_NUM_STATUS_BITS).filter fun c => status.testBit c).filterMap
        (sx9310_probe_funcs hdr).statusFunc =
      (if status.testBit 5 then [touchProcess hdr] else []) ++
      (if status.testBit 6 then [touchProcess hdr] else []) := by
  obtain ⟨k, hk⟩ := Nat.exists_eq_add_of_le hmax
  have hsplit : List.range hdr.MAX_NUM_STATUS_BITS = List.range' 0 8 ++ List.range' 8 k := by
    rw [List.range_eq_range', hk, List.range'_append_1, Nat.add_comm]
  have htail : ((List.range' 8 k).filter fun c => status.testBit c).filterMap
      (sx9310_probe_funcs hdr).statusFunc = [] := by
    rw [List.filterMap_eq_nil_iff]
    intro c hc
    rw [List.mem_filter, List.mem_range'_1] at hc
    exact probe_statusFunc_none hdr c hc.1.1
  have hfn : ∀ c, (sx9310_probe_funcs hdr).statusFunc c =
      if c = 5 ∨ c = 6 then some (touchProcess hdr) else none := by
    intro c
    unfold sx9310_probe_funcs
    simp only [ge_iff_le, hmax, if_true]
    split <;> simp_all
  rw [hsplit, List.filter_append, List.filterMap_append, htail, List.append_nil]
  have hrange : List.range' 0 8 = [0, 1, 2, 3, 4, 5, 6, 7] := rfl
  rw [hrange]
  simp only [List.filter_cons, List.filter_nil]
  by_cases h0 : status.testBit 0 <;> by_cases h1 : status.testBit 1 <;>
  by_cases h2 : status.testBit 2 <;> by_cases h3 : status.testBit 3 <;>
  by_cases h4 : status.testBit 4 <;> by_cases h5 : status.testBit 5 <;>
  by_cases h6 : status.testBit 6 <;> by_cases h7 : status.testBit 7 <;>
  simp [h0, h1, h2, h3, h4, h5, h6, h7, hfn]

theorem sink_events_schedule_work (this : sx93XX) (delay : Nat) :
    sink_events (sx93XX_schedule_work this delay) = sink_events this := by
  unfold sx93XX_schedule_work schedule_delayed_work cancel_delayed_work sink_events
  rfl

/-- A cycle of the deferred worker whose status read and dispatch return leaves the
bus, the buttons and the input device as the dispatch left them. -/
theorem worker_func_of_dispatch (hdr : sx9310_h) (jiffies : Nat → Nat) (fn : sx93XX_funcs)
    (this read dispatched : sx93XX) (status : Nat)
    (hstatus : fn.refreshStatus this = some (status, read))
    (hloop : statusFunc_while fn status hdr.MAX_NUM_STATUS_BITS 0 read = some dispatched) :
    ∃ after,
      sx93XX_worker_func hdr jiffies fn this = some after ∧
      after.bus = dispatched.bus ∧ after.pDevice = dispatched.pDevice := by
  unfold sx93XX_worker_func
  simp only [hstatus, hloop]
  split_ifs <;> exact ⟨_, rfl, rfl, rfl⟩

/-- The dispatch loop with the handler table of `sx9310_probe`, on a device with a
bus, a button table and an input device: `touchProcess` runs once for each of the
status bits 5 and 6 that is set, and each run ends with its own sync. -/
theorem probe_dispatch_events (hdr : sx9310_h) (this : sx93XX) (i2c : i2c_client)
    (pDevice : sx9310) (log : List i2c_msg) (bs : List buttonInfo)
    (evs : List input_event) (status : Nat)
    (hsize : pDevice.pbuttonInformation.buttonSize = bs.length)
    (hmax : 8 ≤ hdr.MAX_NUM_STATUS_BITS) :
    ∃ log1 bs1 emitted,
      statusFunc_while (sx9310_probe_funcs hdr) status hdr.MAX_NUM_STATUS_BITS 0
          (device_with this i2c pDevice log bs evs) =
        some (device_with this i2c pDevice log1 bs1 (evs ++ emitted)) ∧
      emitted.count .sync =
        (if status.testBit 5 then 1 else 0) + (if status.testBit 6 then 1 else 0) ∧
      (status.testBit 5 = true ∨ status.testBit 6 = true →
        emitted.getLast? = some .sync) := by
  rw [statusFunc_while_eq, ← List.range_eq_range', probe_handlers hdr status hmax]
  by_cases h5 : status.testBit 5 = true <;> by_cases h6 : status.testBit 6 = true
  · obtain ⟨bs1, k1, e1, hl1, hc1⟩ := touchProcess_step hdr this i2c pDevice log bs evs hsize
    obtain ⟨bs2, k2, e2, _, hc2⟩ := touchProcess_step hdr this i2c pDevice
      (log ++ [.read_byte_data (hdr.SX9310_STAT0_REG % 256)]) bs1 (evs ++ k1 ++ [.sync])
      (by rw [hl1]; exact hsize)
    refine ⟨log ++ [.read_byte_data (hdr.SX9310_STAT0_REG % 256)] ++
      [.read_byte_data (hdr.SX9310_STAT0_REG % 256)], bs2,
      k1 ++ [.sync] ++ k2 ++ [.sync], ?_, ?_, ?_⟩
    · simp only [h5, h6, if_true, List.singleton_append, List.foldlM_cons, List.foldlM_nil,
        e1]
      simp at e2 ⊢
      exact e2
    · simp [h5, h6, List.count_append, hc1, hc2]
    · intro _; exact List.getLast?_concat _
  · obtain ⟨bs1, k1, e1, _, hc1⟩ := touchProcess_step hdr this i2c pDevice log bs evs hsize
    refine ⟨log ++ [.read_byte_data (hdr.SX9310_STAT0_REG % 256)], bs1,
      k1 ++ [.sync], ?_, ?_, ?_⟩
    · simp only [h5, h6, if_true, List.append_nil, List.foldlM_cons, List.foldlM_nil]
      simp at e1 ⊢
      exact e1
    · simp [h5, h6, List.count_append, hc1]
    · intro _; exact List.getLast?_concat _
  · obtain ⟨bs1, k1, e1, _, hc1⟩ := touchProcess_step hdr this i2c pDevice log bs evs hsize
    refine ⟨log ++ [.read_byte_data (hdr.SX9310_STAT0_REG % 256)], bs1,
      k1 ++ [.sync], ?_, ?_, ?_⟩
    · simp only [h5, h6, if_true, List.nil_append, List.foldlM_cons, List.foldlM_nil]
      simp at e1 ⊢
      exact e1
    · simp [h5, h6, List.count_append, hc1]
    · intro _; exact List.getLast?_concat _
  · refine ⟨log, bs, [], ?_, ?_, ?_⟩
    · simp [h5, h6]
    · simp [h5, h6]
    · intro h; rcases h with h | h
      · exact absurd h h5
      · exact absurd h h6

/-- An Active button with a non-zero mask is released by the status 0. -/
theorem spec_update_zero_active (b : buttonInfo) (hmask : b.mask ≠ 0)
    (hactive : b.state = ACTIVE) :
    spec_update 0 b = ({ b with state := IDLE }, [.key b.keycode 0]) := by
  have hne : ¬ (0 = b.mask) := fun h => hmask h.symm
  simp [spec_update, spec_touched_iff, hactive, hne]

/-- A button with a non-zero mask that is not Active stays as it is under the status 0. -/
theorem spec_update_zero_other (b : buttonInfo) (hmask : b.mask ≠ 0)
    (hactive : b.state ≠ ACTIVE) :
    spec_update 0 b = (b, []) := by
  have hne : ¬ (0 = b.mask) := fun h => hmask h.symm
  simp [spec_update, spec_touched_iff, hactive, hne]

/-- `sx93XX_schedule_work` leaves the work pending with the given delay, whatever was
pending before, and changes nothing else. -/
theorem sx93XX_schedule_work_eq (this : sx93XX) (delay : Nat) :
    sx93XX_schedule_work this delay = { this with dworker := some delay } := by
  unfold sx93XX_schedule_work schedule_delayed_work cancel_delayed_work
  rfl

/-- Every handler in the table of `sx9310_probe` is `touchProcess`. -/
theorem probe_statusFunc_some (hdr : sx9310_h) (c : Nat) (handler : sx93XX → Option sx93XX)
    (h : (sx9310_probe_funcs hdr).statusFunc c = some handler) :
    handler = touchProcess hdr := by
  unfold sx9310_probe_funcs at h
  simp only at h
  split_ifs at h
  split at h
  · exact (Option.some.inj h).symm
  · exact (Option.some.inj h).symm
  · exact absurd h (by simp)

/-- Running `touchProcess` any number of times on a device with a bus, a button table
and an input device returns, and only the bus log, the buttons and the reported
events differ afterwards. -/
theorem foldlM_touchProcess (hdr : sx9310_h) (this : sx93XX) (i2c : i2c_client)
    (pDevice : sx9310) (handlers : List (sx93XX → Option sx93XX))
    (hall : ∀ handler ∈ handlers, handler = touchProcess hdr) :
    ∀ (log : List i2c_msg) (bs : List buttonInfo) (evs : List input_event),
      pDevice.pbuttonInformation.buttonSize = bs.length →
      ∃ log1 bs1 evs1,
        handlers.foldlM (fun this handler => handler this)
            (device_with this i2c pDevice log bs evs) =
          some (device_with this i2c pDevice log1 bs1 evs1) := by
  induction handlers with
  | nil => intro log bs evs _; exact ⟨log, bs, evs, rfl⟩
  | cons handler rest ih =>
    intro log bs evs hsize
    obtain ⟨bs1, keys, hstep, hlen, _⟩ :=
      touchProcess_step hdr this i2c pDevice log bs evs hsize
    obtain ⟨log2, bs2, evs2, hrest⟩ :=
      ih (fun h hh => hall h (List.mem_cons_of_mem _ hh))
        (log ++ [.read_byte_data (hdr.SX9310_STAT0_REG % 256)]) bs1
        (evs ++ keys ++ [.sync]) (by rw [hlen]; exact hsize)
    refine ⟨log2, bs2, evs2, ?_⟩
    rw [List.foldlM_cons, hall handler (List.mem_cons_self _ _), hstep]
    exact hrest

/-- With the handler table of `sx9310_probe` and no IRQ timer, a cycle of the deferred
worker on a device with a bus, a button table and an input device returns, and only
the bus log, the buttons and the reported events differ afterwards. -/
theorem probe_worker_device_with (hdr : sx9310_h) (jiffies : Nat → Nat) (this : sx93XX)
    (i2c : i2c_client) (pDevice : sx9310) (log : List i2c_msg) (bs : List buttonInfo)
    (evs : List input_event)
    (hsize : pDevice.pbuttonInformation.buttonSize = bs.length)
    (htimer : this.useIrqTimer = 0) :
    ∃ log1 bs1 evs1,
      sx93XX_worker_func hdr jiffies (sx9310_probe_funcs hdr)
          (device_with this i2c pDevice log bs evs) =
        some (device_with this i2c pDevice log1 bs1 evs1) := by
  obtain ⟨status, hstat⟩ := read_regStat_device_with hdr this i2c pDevice log bs evs
  obtain ⟨log1, bs1, evs1, hfold⟩ := foldlM_touchProcess hdr this i2c pDevice
    (((List.range' 0 hdr.MAX_NUM_STATUS_BITS).filter fun c => status.testBit c).filterMap
      (sx9310_probe_funcs hdr).statusFunc)
    (by
      intro handler hmem
      obtain ⟨c, _, hc⟩ := List.mem_filterMap.mp hmem
      exact probe_statusFunc_some hdr c handler hc)
    (log ++ [.read_byte_data (hdr.SX9310_IRQSTAT_REG % 256)]) bs evs hsize
  rw [← statusFunc_while_eq] at hfold
  have hrefresh : (sx9310_probe_funcs hdr).refreshStatus
      (device_with this i2c pDevice log bs evs) =
      read_regStat hdr (device_with this i2c pDevice log bs evs) := rfl
  have ht0 : (device_with this i2c pDevice log bs evs).useIrqTimer = 0 := htimer
  have ht1 : (device_with this i2c pDevice log1 bs1 evs1).useIrqTimer = 0 := htimer
  refine ⟨log1, bs1, evs1, ?_⟩
  unfold sx93XX_worker_func
  simp only [hrefresh, hstat, hfold, ht0, ht1]
  simp

/-- The workqueue turn on a device with pending work runs the worker on the device
whose work is no longer pending. -/
theorem run_delayed_work_pending (hdr : sx9310_h) (jiffies : Nat → Nat) (fn : sx93XX_funcs)
    (this : sx93XX) (delay : Nat) :
    run_delayed_work hdr jiffies fn { this with dworker := some delay } =
      match sx93XX_worker_func hdr jiffies fn { this with dworker := none } with
      | none => none
      | some this => some (true, this) := rfl

/-! ## C1: Button update -/

/-- C1: on a device with a bus, a button table and an input device, when the STAT0
read returns the byte `status`, `touchProcess` replaces every button by its update
under the rule of the specification and reports the key events of the buttons in
table order, followed by one sync. Under that rule a button is touched exactly when
`(status & mask) == mask`; Idle and touched gives a press (value 1) and Active;
Active and not touched gives a release (value 0) and Idle; the two other cases emit
nothing and keep the button. This holds for every button table, in particular for
those whose states are all Idle or Active. -/
theorem touchProcess_updates_buttons (hdr : sx9310_h) (this : sx93XX) (i2c : i2c_client)
    (pDevice : sx9310) (bs : List buttonInfo) (inp : input_dev) (status : Nat)
    (hbus : this.bus = some i2c) (hdev : this.pDevice = some pDevice)
    (hbuttons : pDevice.pbuttonInformation.buttons = some bs)
    (hsize : pDevice.pbuttonInformation.buttonSize = bs.length)
    (hinput : pDevice.pbuttonInformation.input = some inp)
    (hread : i2c.adapter i2c.log (.read_byte_data (hdr.SX9310_STAT0_REG % 256)) = status)
    (hbyte : status < 256) :
    touchProcess hdr this =
      some (device_with this i2c pDevice
        (i2c.log ++ [.read_byte_data (hdr.SX9310_STAT0_REG % 256)])
        (bs.map fun b => (spec_update status b).1)
        (inp.events ++ bs.flatMap (fun b => (spec_update status b).2) ++ [.sync])) ∧
    ∀ b ∈ bs,
      (spec_touched status b ↔ status &&& b.mask = b.mask) ∧
      (b.state = IDLE → spec_touched status b →
        spec_update status b = ({ b with state := ACTIVE }, [.key b.keycode 1])) ∧
      (b.state = ACTIVE → ¬ spec_touched status b →
        spec_update status b = ({ b with state := IDLE }, [.key b.keycode 0])) ∧
      (b.state = IDLE → ¬ spec_touched status b → spec_update status b = (b, [])) ∧
      (b.state = ACTIVE → spec_touched status b → spec_update status b = (b, [])) := by
  refine ⟨?_, ?_⟩
  · have hthis := eq_device_with this i2c pDevice bs inp hbus hdev hbuttons hinput
    rw [hthis]
    have hstep := touchProcess_device_with hdr this i2c pDevice i2c.log bs inp.events
      status hsize (by rw [hread]; simp [Nat.mod_eq_of_lt hbyte])
    simpa [device_with] using hstep
  · intro b _
    refine ⟨spec_touched_iff status b, ?_, ?_, ?_, ?_⟩
    · intro h0 ht; simp [spec_update, h0, ht]
    · intro h1 ht; simp [spec_update, h1, ht]
    · intro h0 ht; simp [spec_update, h0, ht]
    · intro h1 ht; simp [spec_update, h1, ht]

/-- Instance of C1: status 3 against the masks 3 (Idle), 4 (Active) and 1 (Active)
presses the first button, releases the second and keeps the third. -/
theorem touchProcess_updates_buttons_witness :
    (touchProcess test_h
        (test_device (test_adapter 0x40 3) [⟨10, 3, IDLE⟩, ⟨11, 4, ACTIVE⟩, ⟨12, 1, ACTIVE⟩]) =
      some (device_with
        (test_device (test_adapter 0x40 3) [⟨10, 3, IDLE⟩, ⟨11, 4, ACTIVE⟩, ⟨12, 1, ACTIVE⟩])
        { adapter := test_adapter 0x40 3, log := [] }
        { pbuttonInformation := {
            buttons := some [⟨10, 3, IDLE⟩, ⟨11, 4, ACTIVE⟩, ⟨12, 1, ACTIVE⟩]
            buttonSize := 3
            input := some { events := [] } }
          hw := some test_program }
        [.read_byte_data 1]
        [⟨10, 3, ACTIVE⟩, ⟨11, 4, IDLE⟩, ⟨12, 1, ACTIVE⟩]
        [.key 10 1, .key 11 0, .sync])) :=
  (touchProcess_updates_buttons test_h
    (test_device (test_adapter 0x40 3) [⟨10, 3, IDLE⟩, ⟨11, 4, ACTIVE⟩, ⟨12, 1, ACTIVE⟩])
    { adapter := test_adapter 0x40 3, log := [] }
    { pbuttonInformation := {
        buttons := some [⟨10, 3, IDLE⟩, ⟨11, 4, ACTIVE⟩, ⟨12, 1, ACTIVE⟩]
        buttonSize := 3
        input := some { events := [] } }
      hw := some test_program }
    [⟨10, 3, IDLE⟩, ⟨11, 4, ACTIVE⟩, ⟨12, 1, ACTIVE⟩] { events := [] } 3
    rfl rfl rfl rfl rfl rfl (by decide)).1

/-! ## C2: Status dispatch -/

/-- C3, evaluated: one cycle of the deferred worker with the handler table of
`sx9310_probe` on a device with one Idle button whose transport fails every read.
The cycle makes the one status read and nothing else: the button is still Idle and
no event has been reported. -/
theorem worker_failing_reads_no_forced_touch :
    (sx93XX_worker_func test_h (fun ms => ms) (sx9310_probe_funcs test_h)
        (test_device failing_read_adapter [⟨10, 0x20, IDLE⟩])).map
      (fun this => (bus_log this, button_table this, sink_events this)) =
      some ([.read_byte_data 0], [⟨10, 0x20, IDLE⟩], []) := by
  rfl

/-! ## C4: Initialisation sequence -/

/-- C4, counterexample: with a register program of three entries on a transport that
fails the write of the second entry, `initialize` still sends the third entry and
the calibration trigger after the failed write. -/
theorem initialize_writes_after_failed_entry :
    failing_write_adapter [.send 0x7F 0xDE, .send 0x10 0x11] (.send 0x20 0x22) < 0 ∧
    (initialize_device test_h (test_device failing_write_adapter [⟨10, 3, IDLE⟩])).map
      (fun r => bus_log r.2) =
      some [.send 0x7F 0xDE, .send 0x10 0x11, .send 0x20 0x22, .send 0x30 0x33,
            .send 0x00 0xFF, .read_byte_data 0x00] := by
  constructor
  · decide
  · rfl

/-- C4, amended: on a device with a bus, a register program of three entries, a first
button, an input device and an interrupt-line callback, `initialize` completes after
sending, in this order, the soft reset, the three program entries, the calibration
trigger (0xFF to IRQSTAT) and one status read, whatever the transport answers to
any of them: a failed write does not stop the sequence. Nothing is said about the
value `initialize` returns. -/
theorem initialize_bus_sequence (hdr : sx9310_h) (this : sx93XX) (i2c : i2c_client)
    (pDevice : sx9310) (pdata : sx9310_platform_data) (e1 e2 e3 : smtc_reg_data)
    (b : buttonInfo) (rest : List buttonInfo) (inp : input_dev) (nirq : Int)
    (hbus : this.bus = some i2c) (hdev : this.pDevice = some pDevice)
    (hhw : pDevice.hw = some pdata)
    (hnum : pdata.i2c_reg_num = 3) (hprog : pdata.pi2c_reg = [e1, e2, e3])
    (hbuttons : pDevice.pbuttonInformation.buttons = some (b :: rest))
    (hinput : pDevice.pbuttonInformation.input = some inp)
    (hnirq : this.get_nirq_low = some nirq) :
    ∃ ret after, initialize_device hdr this = some (ret, after) ∧
      after.bus = some { i2c with log := i2c.log ++
        [.send (hdr.SX9310_SOFTRESET_REG % 256) (hdr.SX9310_SOFTRESET % 256),
         .send (e1.reg % 256) (e1.val % 256),
         .send (e2.reg % 256) (e2.val % 256),
         .send (e3.reg % 256) (e3.val % 256),
         .send (hdr.SX9310_IRQSTAT_REG % 256) 0xFF,
         .read_byte_data (hdr.SX9310_IRQSTAT_REG % 256)] } := by
  have hthis := eq_device_with this i2c pDevice (b :: rest) inp hbus hdev hbuttons hinput
  obtain ⟨b1, evs1, hinit⟩ := initialize_device_sends hdr this i2c pDevice pdata i2c.log
    b rest inp.events nirq hhw (by rw [hnum, hprog]; rfl) hnirq
  refine ⟨_, _, by rw [hthis]; exact hinit, ?_⟩
  simp [device_with, hprog]

/-- Instance of the amended C4 on the transport that fails the second entry. -/
theorem initialize_bus_sequence_witness :
    ∃ ret after,
      initialize_device test_h (test_device failing_write_adapter [⟨10, 3, IDLE⟩]) =
        some (ret, after) ∧
      after.bus = some { adapter := failing_write_adapter, log :=
        [.send 0x7F 0xDE, .send 0x10 0x11, .send 0x20 0x22, .send 0x30 0x33,
         .send 0x00 0xFF, .read_byte_data 0x00] } :=
  initialize_bus_sequence test_h (test_device failing_write_adapter [⟨10, 3, IDLE⟩])
    { adapter := failing_write_adapter, log := [] }
    { pbuttonInformation := {
        buttons := some [⟨10, 3, IDLE⟩]
        buttonSize := 1
        input := some { events := [] } }
      hw := some test_program }
    test_program ⟨0x10, 0x11⟩ ⟨0x20, 0x22⟩ ⟨0x30, 0x33⟩ ⟨10, 3, IDLE⟩ [] { events := [] } 1
    rfl rfl rfl rfl rfl rfl rfl rfl

/-! ## C5: Edge detection -/

/-- C5, counterexample: with the mask 0 the status sequence `[m, m, 0, 0, m]` is five
times 0, the button is touched every time, and five runs of `touchProcess` report a
single press and no release. -/
theorem edge_detect_zero_mask :
    (touchProcess_times test_h 5 (test_device (test_adapter 0 0) [⟨10, 0, IDLE⟩])).map
      (fun this => (bus_log this, sink_events this)) =
      some ([.read_byte_data 1, .read_byte_data 1, .read_byte_data 1, .read_byte_data 1,
             .read_byte_data 1],
            [.key 10 1, .sync, .sync, .sync, .sync, .sync]) := by
  rfl

/-- C5, amended: for every non-zero mask `m` that fits the status byte, on a device
with the single button of mask `m` in state Idle, five runs of `touchProcess` whose
STAT0 reads return `m, m, 0, 0, m` report the key events press, release, press of
that button and no other key event. -/
theorem edge_detect_press_release_press (hdr : sx9310_h) (this : sx93XX)
    (i2c : i2c_client) (pDevice : sx9310) (b : buttonInfo) (inp : input_dev) (m : Nat)
    (hbus : this.bus = some i2c) (hdev : this.pDevice = some pDevice)
    (hbuttons : pDevice.pbuttonInformation.buttons = some [b])
    (hsize : pDevice.pbuttonInformation.buttonSize = 1)
    (hinput : pDevice.pbuttonInformation.input = some inp)
    (hmask : b.mask = m) (hidle : b.state = IDLE)
    (hpos : 0 < m) (hbyte : m < 256)
    (h1 : i2c.adapter i2c.log (.read_byte_data (hdr.SX9310_STAT0_REG % 256)) = m)
    (h2 : i2c.adapter (i2c.log ++ [.read_byte_data (hdr.SX9310_STAT0_REG % 256)])
      (.read_byte_data (hdr.SX9310_STAT0_REG % 256)) = m)
    (h3 : i2c.adapter (i2c.log ++ [.read_byte_data (hdr.SX9310_STAT0_REG % 256)] ++
        [.read_byte_data (hdr.SX9310_STAT0_REG % 256)])
      (.read_byte_data (hdr.SX9310_STAT0_REG % 256)) = 0)
    (h4 : i2c.adapter (i2c.log ++ [.read_byte_data (hdr.SX9310_STAT0_REG % 256)] ++
        [.read_byte_data (hdr.SX9310_STAT0_REG % 256)] ++
        [.read_byte_data (hdr.SX9310_STAT0_REG % 256)])
      (.read_byte_data (hdr.SX9310_STAT0_REG % 256)) = 0)
    (h5 : i2c.adapter (i2c.log ++ [.read_byte_data (hdr.SX9310_STAT0_REG % 256)] ++
        [.read_byte_data (hdr.SX9310_STAT0_REG % 256)] ++
        [.read_byte_data (hdr.SX9310_STAT0_REG % 256)] ++
        [.read_byte_data (hdr.SX9310_STAT0_REG % 256)])
      (.read_byte_data (hdr.SX9310_STAT0_REG % 256)) = m) :
    ∃ after emitted,
      touchProcess_times hdr 5 this = some after ∧
      sink_events after = inp.events ++ emitted ∧
      key_events emitted = [.key b.keycode 1, .key b.keycode 0, .key b.keycode 1] := by
  have hthis := eq_device_with this i2c pDevice [b] inp hbus hdev hbuttons hinput
  have hb : b = ⟨b.keycode, m, IDLE⟩ := by
    cases b; simp only at hmask hidle; subst hmask hidle; rfl
  have hrun := touchProcess_times_edges hdr this i2c pDevice i2c.log inp.events b.keycode m
    hsize hpos hbyte h1 h2 h3 h4 h5
  rw [← hb, ← hthis] at hrun
  exact ⟨_, _, hrun, rfl, rfl⟩

/-- Instance of the amended C5 for the mask 0x20. -/
theorem edge_detect_press_release_press_witness :
    ∃ after emitted,
      touchProcess_times test_h 5 (test_device edge_adapter [⟨10, 0x20, IDLE⟩]) = some after ∧
      sink_events after = [] ++ emitted ∧
      key_events emitted = [.key 10 1, .key 10 0, .key 10 1] :=
  edge_detect_press_release_press test_h (test_device edge_adapter [⟨10, 0x20, IDLE⟩])
    { adapter := edge_adapter, log := [] }
    { pbuttonInformation := {
        buttons := some [⟨10, 0x20, IDLE⟩]
        buttonSize := 1
        input := some { events := [] } }
      hw := some test_program }
    ⟨10, 0x20, IDLE⟩ { events := [] } 0x20
    rfl rfl rfl rfl rfl rfl rfl (by decide) (by decide) rfl rfl rfl rfl rfl

/-! ## C6: Forced touch -/

/-- C6: on a device with a non-empty button table and an input device, whatever the
state and the mask of the first button, `ForcetoTouched` makes the first button
Active, reports a press of its keycode followed by a sync, and changes nothing
else: the keycode and mask of the first button, all other buttons and the bus (no
register is read) stay as they are. -/
theorem ForcetoTouched_first_button (this : sx93XX) (pDevice : sx9310) (b : buttonInfo)
    (rest : List buttonInfo) (inp : input_dev)
    (hdev : this.pDevice = some pDevice)
    (hbuttons : pDevice.pbuttonInformation.buttons = some (b :: rest))
    (hinput : pDevice.pbuttonInformation.input = some inp) :
    ForcetoTouched this =
      some { this with
        pDevice := some { pDevice with
          pbuttonInformation := { pDevice.pbuttonInformation with
            buttons := some ({ b with state := ACTIVE } :: rest)
            input := some { events := inp.events ++ [.key b.keycode 1, .sync] } } } } :=
  ForcetoTouched_eq this pDevice b rest inp hdev hbuttons hinput

/-- Instance of C6 on a table of two buttons. -/
theorem ForcetoTouched_first_button_witness :
    (ForcetoTouched (test_device (test_adapter 0 0) [⟨10, 3, IDLE⟩, ⟨11, 4, ACTIVE⟩])).map
      (fun this => (bus_log this, button_table this, sink_events this)) =
      some ([], [⟨10, 3, ACTIVE⟩, ⟨11, 4, ACTIVE⟩], [.key 10 1, .sync]) := by
  rw [ForcetoTouched_first_button (test_device (test_adapter 0 0) [⟨10, 3, IDLE⟩, ⟨11, 4, ACTIVE⟩])
    _ ⟨10, 3, IDLE⟩ [⟨11, 4, ACTIVE⟩] { events := [] } rfl rfl rfl]
  rfl

/-! ## C7: Sync per cycle -/

/-- C7, counterexample: with the status 0x60 both bit 5 and bit 6 are set, the handler
table of `sx9310_probe` runs `touchProcess` twice in the cycle, and the input
device receives two syncs. -/
theorem worker_two_syncs_in_one_cycle :
    (sx93XX_worker_func test_h (fun ms => ms) (sx9310_probe_funcs test_h)
        (test_device (test_adapter 0x60 1) [⟨10, 1, IDLE⟩])).map
      (fun this => (bus_log this, sink_events this)) =
      some ([.read_byte_data 0, .read_byte_data 1, .read_byte_data 1],
            [.key 10 1, .sync, .sync]) := by
  rfl

/-- C7, amended: on a device with a bus, a button table and an input device, with at
least eight status bits and the handler table of `sx9310_probe`, a cycle of the
deferred worker whose status read returns the byte `status` completes, and the
input device receives one sync for each run of `touchProcess`: one for bit 5 and
one for bit 6 of the status. When `touchProcess` ran at all, the last call the input
device receives in the cycle is a sync, so every key report of the cycle comes
before a sync. -/
theorem worker_sync_per_invocation (hdr : sx9310_h) (jiffies : Nat → Nat) (this : sx93XX)
    (i2c : i2c_client) (pDevice : sx9310) (bs : List buttonInfo) (inp : input_dev)
    (status : Nat)
    (hbus : this.bus = some i2c) (hdev : this.pDevice = some pDevice)
    (hbuttons : pDevice.pbuttonInformation.buttons = some bs)
    (hsize : pDevice.pbuttonInformation.buttonSize = bs.length)
    (hinput : pDevice.pbuttonInformation.input = some inp)
    (hmax : 8 ≤ hdr.MAX_NUM_STATUS_BITS)
    (hread : i2c.adapter i2c.log (.read_byte_data (hdr.SX9310_IRQSTAT_REG % 256)) = status)
    (hbyte : status < 256) :
    ∃ after emitted,
      sx93XX_worker_func hdr jiffies (sx9310_probe_funcs hdr) this = some after ∧
      sink_events after = inp.events ++ emitted ∧
      emitted.count .sync =
        (if status.testBit 5 then 1 else 0) + (if status.testBit 6 then 1 else 0) ∧
      (status.testBit 5 = true ∨ status.testBit 6 = true →
        emitted.getLast? = some .sync) := by
  have hthis := eq_device_with this i2c pDevice bs inp hbus hdev hbuttons hinput
  have hst : ((status : Int).toNat % 256) &&& 0xFF = status := by
    have h255 : (0xFF : Nat) = 2 ^ 8 - 1 := by norm_num
    rw [Int.toNat_ofNat, Nat.mod_eq_of_lt hbyte, h255, Nat.and_pow_two_sub_one_eq_mod,
      Nat.mod_eq_of_lt (by simpa using hbyte)]
  have hstat : read_regStat hdr this =
      some (status, device_with this i2c pDevice
        (i2c.log ++ [.read_byte_data (hdr.SX9310_IRQSTAT_REG % 256)]) bs inp.events) := by
    rw [read_regStat_eq hdr this i2c hbus, hread, if_pos (by simp), hst]
    conv_lhs => rw [hthis]
    simp [device_with]
  obtain ⟨log1, bs1, emitted, hloop, hcount, hlast⟩ := probe_dispatch_events hdr this i2c
    pDevice (i2c.log ++ [.read_byte_data (hdr.SX9310_IRQSTAT_REG % 256)]) bs inp.events
    status hsize hmax
  obtain ⟨after, hafter, _, hdevice⟩ := worker_func_of_dispatch hdr jiffies
    (sx9310_probe_funcs hdr) this _ _ status hstat hloop
  refine ⟨after, emitted, hafter, ?_, hcount, hlast⟩
  unfold sink_events
  rw [hdevice]
  rfl

/-- Instance of the amended C7 for the status 0x60. -/
theorem worker_sync_per_invocation_witness :
    ∃ after emitted,
      sx93XX_worker_func test_h (fun ms => ms) (sx9310_probe_funcs test_h)
        (test_device (test_adapter 0x60 1) [⟨10, 1, IDLE⟩]) = some after ∧
      sink_events after = [] ++ emitted ∧
      emitted.count .sync = 2 ∧ emitted.getLast? = some .sync := by
  obtain ⟨after, emitted, hrun, hsink, hcount, hlast⟩ :=
    worker_sync_per_invocation test_h (fun ms => ms)
      (test_device (test_adapter 0x60 1) [⟨10, 1, IDLE⟩])
      { adapter := test_adapter 0x60 1, log := [] }
      { pbuttonInformation := {
          buttons := some [⟨10, 1, IDLE⟩]
          buttonSize := 1
          input := some { events := [] } }
        hw := some test_program }
      [⟨10, 1, IDLE⟩] { events := [] } 0x60
      rfl rfl rfl rfl rfl (by decide) rfl (by decide)
  exact ⟨after, emitted, hrun, hsink, by simpa using hcount, hlast (by decide)⟩

/-! ## C8: Write failure -/

/-- C8: on a device with a bus, a non-empty button table and an input device, for every
address and value: when the transport fails the write (negative result),
`write_register` returns that negative result, the first button is Active and its
press has been reported; when the transport accepts the write, `write_register`
returns the non-negative result, reports nothing and keeps every button. -/
theorem write_register_fail_safe (this : sx93XX) (i2c : i2c_client) (pDevice : sx9310)
    (b : buttonInfo) (rest : List buttonInfo) (inp : input_dev) (address value : Nat)
    (ret : Int)
    (hbus : this.bus = some i2c) (hdev : this.pDevice = some pDevice)
    (hbuttons : pDevice.pbuttonInformation.buttons = some (b :: rest))
    (hinput : pDevice.pbuttonInformation.input = some inp)
    (hret : i2c.adapter i2c.log (.send (address % 256) (value % 256)) = ret) :
    (ret < 0 →
      write_register this address value =
        some (ret, device_with this i2c pDevice
          (i2c.log ++ [.send (address % 256) (value % 256)])
          ({ b with state := ACTIVE } :: rest)
          (inp.events ++ [.key b.keycode 1, .sync]))) ∧
    (0 ≤ ret →
      write_register this address value =
        some (ret, device_with this i2c pDevice
          (i2c.log ++ [.send (address % 256) (value % 256)])
          (b :: rest) inp.events)) := by
  have hthis := eq_device_with this i2c pDevice (b :: rest) inp hbus hdev hbuttons hinput
  rw [write_register_eq this i2c address value hbus, hret]
  constructor
  · intro hneg
    rw [if_pos hneg,
      ForcetoTouched_eq _ pDevice b rest inp (by simpa using hdev) hbuttons hinput]
    simp [device_with]
  · intro hpos
    rw [if_neg (not_lt.mpr hpos)]
    conv_lhs => rw [hthis]
    simp [device_with]

/-- Instance of C8 for a failing write. -/
theorem write_register_fail_safe_witness :
    write_register (test_device failing_write_adapter [⟨10, 3, IDLE⟩, ⟨11, 4, IDLE⟩]) 0x20 0x22 =
      some (-5, device_with (test_device failing_write_adapter [⟨10, 3, IDLE⟩, ⟨11, 4, IDLE⟩])
        { adapter := failing_write_adapter, log := [] }
        { pbuttonInformation := {
            buttons := some [⟨10, 3, IDLE⟩, ⟨11, 4, IDLE⟩]
            buttonSize := 2
            input := some { events := [] } }
          hw := some test_program }
        [.send 0x20 0x22] [⟨10, 3, ACTIVE⟩, ⟨11, 4, IDLE⟩] [.key 10 1, .sync]) :=
  (write_register_fail_safe (test_device failing_write_adapter [⟨10, 3, IDLE⟩, ⟨11, 4, IDLE⟩])
    { adapter := failing_write_adapter, log := [] }
    { pbuttonInformation := {
        buttons := some [⟨10, 3, IDLE⟩, ⟨11, 4, IDLE⟩]
        buttonSize := 2
        input := some { events := [] } }
      hw := some test_program }
    ⟨10, 3, IDLE⟩ [⟨11, 4, IDLE⟩] { events := [] } 0x20 0x22 (-5)
    rfl rfl rfl rfl rfl).1 (by decide)

/-! ## C9: Status decoder -/

/-- C9: on a device with a bus, `read_regStat` returns the byte read from IRQSTAT
masked with 0xFF when the transport read succeeds and 0 when it fails; in both
cases the device data is untouched (no button changes, nothing is reported): only
the bus log grows by the read. -/
theorem read_regStat_no_fail_safe (hdr : sx9310_h) (this : sx93XX) (i2c : i2c_client)
    (ret : Int) (hbus : this.bus = some i2c)
    (hret : i2c.adapter i2c.log (.read_byte_data (hdr.SX9310_IRQSTAT_REG % 256)) = ret) :
    (0 ≤ ret →
      read_regStat hdr this =
        some ((ret.toNat % 256) &&& 0xFF,
          { this with bus := some { i2c with
              log := i2c.log ++ [.read_byte_data (hdr.SX9310_IRQSTAT_REG % 256)] } })) ∧
    (ret < 0 →
      read_regStat hdr this =
        some (0,
          { this with bus := some { i2c with
              log := i2c.log ++ [.read_byte_data (hdr.SX9310_IRQSTAT_REG % 256)] } })) := by
  rw [read_regStat_eq hdr this i2c hbus, hret]
  constructor
  · intro hpos; rw [if_pos hpos]
  · intro hneg; rw [if_neg (not_le.mpr hneg)]

/-- Instance of C9 for a failing read. -/
theorem read_regStat_no_fail_safe_witness :
    (read_regStat test_h (test_device failing_read_adapter [⟨10, 3, ACTIVE⟩])).map
      (fun r => (r.1, bus_log r.2, button_table r.2, sink_events r.2)) =
      some (0, [.read_byte_data 0], [⟨10, 3, ACTIVE⟩], []) := by
  rw [(read_regStat_no_fail_safe test_h (test_device failing_read_adapter [⟨10, 3, ACTIVE⟩])
    { adapter := failing_read_adapter, log := [] } (-5) rfl rfl).2 (by decide)]
  rfl

/-! ## C10: Manual calibration -/

/-- C10: on a device with a bus whose transport accepts every transfer, two calls of
`manual_offset_calibration` send exactly two transfers, each the write of 0xFF to
IRQSTAT, and change nothing else: not `irq_disabled`, not the buttons, not the input
device. -/
theorem manual_offset_calibration_twice_writes (hdr : sx9310_h) (this : sx93XX)
    (i2c : i2c_client) (hbus : this.bus = some i2c)
    (hwork : ∀ log msg, 0 ≤ i2c.adapter log msg) :
    manual_offset_calibration_twice hdr this =
      some (i2c.adapter (i2c.log ++ [.send (hdr.SX9310_IRQSTAT_REG % 256) 0xFF])
              (.send (hdr.SX9310_IRQSTAT_REG % 256) 0xFF),
        { this with bus := some { i2c with
            log := i2c.log ++ [.send (hdr.SX9310_IRQSTAT_REG % 256) 0xFF,
                               .send (hdr.SX9310_IRQSTAT_REG % 256) 0xFF] } }) := by
  unfold manual_offset_calibration_twice manual_offset_calibration
  rw [write_register_eq this i2c _ _ hbus, if_neg (not_lt.mpr (hwork _ _))]
  simp only
  rw [write_register_eq _ { i2c with log := i2c.log ++ [.send (hdr.SX9310_IRQSTAT_REG % 256) (0xFF % 256)] } _ _ rfl,
    if_neg (not_lt.mpr (hwork _ _))]
  simp

/-- Instance of C10 on an armed device. -/
theorem manual_offset_calibration_twice_writes_witness :
    (manual_offset_calibration_twice test_h
        (test_device (test_adapter 0 0) [⟨10, 3, ACTIVE⟩])).map
      (fun r => (r.1, bus_log r.2, r.2.irq_disabled, button_table r.2, sink_events r.2)) =
      some (2, [.send 0 0xFF, .send 0 0xFF], 0, [⟨10, 3, ACTIVE⟩], []) := by
  rw [manual_offset_calibration_twice_writes test_h
    (test_device (test_adapter 0 0) [⟨10, 3, ACTIVE⟩])
    { adapter := test_adapter 0 0, log := [] } rfl
    (by intro log msg; cases msg <;> simp [test_adapter])]
  rfl

/-! ## C11: Return value of initialize -/

/-- C11, evaluated: on a transport that accepts every write and fails every read, the
last bus command of `initialize`, the status read, fails with -5, and `initialize`
returns 0. -/
theorem initialize_returns_zero_after_failed_read :
    failing_read_adapter
        [.send 0x7F 0xDE, .send 0x10 0x11, .send 0x20 0x22, .send 0x30 0x33, .send 0x00 0xFF]
        (.read_byte_data 0x00) < 0 ∧
    (initialize_device test_h (test_device failing_read_adapter [⟨10, 3, IDLE⟩])).map
      (fun r => (r.1, bus_log r.2)) =
      some (0, [.send 0x7F 0xDE, .send 0x10 0x11, .send 0x20 0x22, .send 0x30 0x33,
                .send 0x00 0xFF, .read_byte_data 0x00]) := by
  constructor
  · decide
  · rfl

/-! ## C12: Coalescing of deferred work -/

/-- C12: for every device with pending work, `sx93XX_schedule_work` leaves the work
pending with the new delay and changes nothing else, so after two calls in a row the
one pending work has the delay of the second call. On a device with a bus, a button
table and an input device, with the handler table of `sx9310_probe` and no IRQ
timer, the workqueue then runs the worker once: its first turn runs it and leaves
nothing pending, and its second turn runs nothing. -/
theorem schedule_work_coalesces (hdr : sx9310_h) (jiffies : Nat → Nat) (this : sx93XX)
    (i2c : i2c_client) (pDevice : sx9310) (bs : List buttonInfo) (inp : input_dev)
    (d1 d2 : Nat)
    (hbus : this.bus = some i2c) (hdev : this.pDevice = some pDevice)
    (hbuttons : pDevice.pbuttonInformation.buttons = some bs)
    (hsize : pDevice.pbuttonInformation.buttonSize = bs.length)
    (hinput : pDevice.pbuttonInformation.input = some inp)
    (htimer : this.useIrqTimer = 0) :
    (∀ (dev : sx93XX) (pending delay : Nat), dev.dworker = some pending →
      sx93XX_schedule_work dev delay = { dev with dworker := some delay }) ∧
    sx93XX_schedule_work (sx93XX_schedule_work this d1) d2 =
      { this with dworker := some d2 } ∧
    ∃ after,
      run_delayed_work hdr jiffies (sx9310_probe_funcs hdr)
          (sx93XX_schedule_work (sx93XX_schedule_work this d1) d2) = some (true, after) ∧
      run_delayed_work hdr jiffies (sx9310_probe_funcs hdr) after = some (false, after) := by
  have htwice : sx93XX_schedule_work (sx93XX_schedule_work this d1) d2 =
      { this with dworker := some d2 } := by
    rw [sx93XX_schedule_work_eq, sx93XX_schedule_work_eq]
  refine ⟨fun dev _ delay _ => sx93XX_schedule_work_eq dev delay, htwice, ?_⟩
  have hbase := eq_device_with { this with dworker := none } i2c pDevice bs inp
    hbus hdev hbuttons hinput
  obtain ⟨log1, bs1, evs1, hrun⟩ := probe_worker_device_with hdr jiffies
    { this with dworker := none } i2c pDevice i2c.log bs inp.events hsize htimer
  rw [← hbase] at hrun
  refine ⟨device_with { this with dworker := none } i2c pDevice log1 bs1 evs1, ?_, rfl⟩
  rw [htwice, run_delayed_work_pending, hrun]

/-- Instance of C12: scheduling with delay 5 and then with delay 0. -/
theorem schedule_work_coalesces_witness :
    (sx93XX_schedule_work
        (sx93XX_schedule_work (test_device (test_adapter 0x40 1) [⟨10, 1, IDLE⟩]) 5) 0).dworker =
      some 0 ∧
    ∃ after,
      run_delayed_work test_h (fun ms => ms) (sx9310_probe_funcs test_h)
          (sx93XX_schedule_work
            (sx93XX_schedule_work (test_device (test_adapter 0x40 1) [⟨10, 1, IDLE⟩]) 5) 0) =
        some (true, after) ∧
      run_delayed_work test_h (fun ms => ms) (sx9310_probe_funcs test_h) after =
        some (false, after) := by
  have h := schedule_work_coalesces test_h (fun ms => ms)
    (test_device (test_adapter 0x40 1) [⟨10, 1, IDLE⟩])
    { adapter := test_adapter 0x40 1, log := [] }
    { pbuttonInformation := {
        buttons := some [⟨10, 1, IDLE⟩]
        buttonSize := 1
        input := some { events := [] } }
      hw := some test_program }
    [⟨10, 1, IDLE⟩] { events := [] } 5 0 rfl rfl rfl rfl rfl rfl
  exact ⟨by rw [h.2.1], h.2.2⟩

/-! ## C13: Read failure inside touchProcess -/

/-- C13: on a device with a bus, a button table and an input device, when the transport
fails the STAT0 read, `touchProcess` is exactly the button update for the status 0
followed by one sync: there is no forced touch, every Active button with a non-zero
mask becomes Idle and reports a release, and every other button with a non-zero mask
is kept and reports nothing, so none of them is pressed. -/
theorem touchProcess_failed_read_as_status_zero (hdr : sx9310_h) (this : sx93XX)
    (i2c : i2c_client) (pDevice : sx9310) (bs : List buttonInfo) (inp : input_dev)
    (hbus : this.bus = some i2c) (hdev : this.pDevice = some pDevice)
    (hbuttons : pDevice.pbuttonInformation.buttons = some bs)
    (hsize : pDevice.pbuttonInformation.buttonSize = bs.length)
    (hinput : pDevice.pbuttonInformation.input = some inp)
    (hfail : i2c.adapter i2c.log (.read_byte_data (hdr.SX9310_STAT0_REG % 256)) < 0) :
    touchProcess hdr this =
      some (device_with this i2c pDevice
        (i2c.log ++ [.read_byte_data (hdr.SX9310_STAT0_REG % 256)])
        (bs.map fun b => (spec_update 0 b).1)
        (inp.events ++ bs.flatMap (fun b => (spec_update 0 b).2) ++ [.sync])) ∧
    ∀ b ∈ bs, b.mask ≠ 0 →
      (b.state = ACTIVE →
        spec_update 0 b = ({ b with state := IDLE }, [.key b.keycode 0])) ∧
      (b.state ≠ ACTIVE → spec_update 0 b = (b, [])) := by
  refine ⟨?_, ?_⟩
  · have hthis := eq_device_with this i2c pDevice bs inp hbus hdev hbuttons hinput
    have hstep := touchProcess_device_with hdr this i2c pDevice i2c.log bs inp.events 0
      hsize (by rw [if_neg (not_le.mpr hfail)])
    rw [← hthis] at hstep
    exact hstep
  · intro b _ hmask
    exact ⟨spec_update_zero_active b hmask, spec_update_zero_other b hmask⟩

/-- Instance of C13: the Active button of mask 3 is released and the Idle button of
mask 4 is kept; the button of mask 0 is touched by every status and is pressed. -/
theorem touchProcess_failed_read_as_status_zero_witness :
    touchProcess test_h
        (test_device failing_read_adapter [⟨10, 3, ACTIVE⟩, ⟨11, 4, IDLE⟩, ⟨12, 0, IDLE⟩]) =
      some (device_with
        (test_device failing_read_adapter [⟨10, 3, ACTIVE⟩, ⟨11, 4, IDLE⟩, ⟨12, 0, IDLE⟩])
        { adapter := failing_read_adapter, log := [] }
        { pbuttonInformation := {
            buttons := some [⟨10, 3, ACTIVE⟩, ⟨11, 4, IDLE⟩, ⟨12, 0, IDLE⟩]
            buttonSize := 3
            input := some { events := [] } }
          hw := some test_program }
        [.read_byte_data 1]
        [⟨10, 3, IDLE⟩, ⟨11, 4, IDLE⟩, ⟨12, 0, ACTIVE⟩]
        [.key 10 0, .key 12 1, .sync]) :=
  (touchProcess_failed_read_as_status_zero test_h
    (test_device failing_read_adapter [⟨10, 3, ACTIVE⟩, ⟨11, 4, IDLE⟩, ⟨12, 0, IDLE⟩])
    { adapter := failing_read_adapter, log := [] }
    { pbuttonInformation := {
        buttons := some [⟨10, 3, ACTIVE⟩, ⟨11, 4, IDLE⟩, ⟨12, 0, IDLE⟩]
        buttonSize := 3
        input := some { events := [] } }
      hw := some test_program }
    [⟨10, 3, ACTIVE⟩, ⟨11, 4, IDLE⟩, ⟨12, 0, IDLE⟩] { events := [] }
    rfl rfl rfl rfl rfl (by decide)).1

end Sx9310
